import Mathlib

/-!
Verification development for the meta-dm-bot repository.

The file shallowly embeds the core of the repository:
* the delivery queue (`SimpleMessageQueue` in the queue/processor module):
  a functional unfolding of its `processQueue` while-loop and a small-step
  state machine for the cooperative (single-threaded, awaits-only)
  interleaving of `add` calls with the drain loop;
* the webhook event normalizer (`receiveWebhook` in webhookController.ts);
* the verification handshake (`verifyWebhook` in webhookController.ts);
* the outbound endpoint routing and request body (`MetaService.sendMessage`
  in metaService.ts).

JavaScript-specific behaviour is modelled explicitly: optional / possibly
`undefined` fields are `Option`s, and truthiness of a string value
(`if (x)`, `x ? a : b`, `x || y`) is `some s` with `s` non-empty.
-/

/-- Job data enqueued on the delivery queue (interface `MetaApiJobData`). -/
structure MetaApiJobData where
  psid : String
  text : String
  instagramAccountId : Option String
  dmLogId : Option String
deriving DecidableEq, Repr

/-! ## Functional model of the drain loop

`processQueue` runs a while-loop: shift the oldest job, `await
processMetaMessage(jobData)` inside a `try`; on success it then awaits a
1000 ms `setTimeout` (the pacing sleep) and loops; on failure control jumps
to the `catch`, which logs and falls through to the next loop iteration
without any sleep.  `processQueueRun jobs ok` is that loop unfolded over a
fixed backlog `jobs`, with `ok j` telling whether the send attempt for `j`
succeeds; it returns the sequence of externally visible actions. -/

/-- An externally visible action of the drain loop: a Delivery Client send
invocation (with its outcome) or the 1000 ms pacing sleep. -/
inductive DrainAction where
  | send (job : MetaApiJobData) (ok : Bool)
  | wait
deriving DecidableEq, Repr

/-- The drain while-loop of `SimpleMessageQueue.processQueue`, unfolded over
a fixed backlog: shift the head job, attempt the send; on success sleep the
pacing interval, on failure the `catch` swallows the error and the loop
proceeds directly to the next item. -/
def processQueueRun : List MetaApiJobData → (MetaApiJobData → Bool) → List DrainAction
  | [], _ => []
  | j :: rest, ok =>
    if ok j then
      DrainAction.send j true :: DrainAction.wait :: processQueueRun rest ok
    else
      DrainAction.send j false :: processQueueRun rest ok

/-- `true` iff no send action is immediately followed by another send action,
i.e. some pacing wait separates every two consecutive send invocations. -/
def noAdjacentSends : List DrainAction → Bool
  | DrainAction.send _ _ :: DrainAction.send _ _ :: _ => false
  | _ :: rest => noAdjacentSends rest
  | [] => true

/-- The job of a send action, if the action is a send. -/
def sendJob : DrainAction → Option MetaApiJobData
  | DrainAction.send j _ => some j
  | DrainAction.wait => none

/-- Two concrete jobs used in counterexamples and witnesses. -/
def jobA : MetaApiJobData := { psid := "userA", text := "hello", instagramAccountId := none, dmLogId := none }

/-- A second concrete job. -/
def jobB : MetaApiJobData := { psid := "userB", text := "world", instagramAccountId := none, dmLogId := none }

/-! ## Small-step model of the queue with concurrent enqueues

JavaScript is single-threaded; interleaving happens only at `await`
boundaries.  The synchronous segments of `SimpleMessageQueue` become the
atomic transitions below.  `add` pushes the job and, when `processing` is
`false`, synchronously calls `processQueue`, which re-checks the flag, sets
`processing := true`, shifts the head and starts its send — all before the
first `await`.  A loop activation suspended at an `await` is recorded by a
`LoopPC` program counter; `loops` is the list of live `processQueue`
activations, so that the single-flight property is provable rather than
built into the state type. -/

/-- Program counter of a suspended `processQueue` activation: awaiting the
send of a job, or awaiting the pacing `setTimeout`. -/
inductive LoopPC where
  | sending (job : MetaApiJobData)
  | pacing
deriving DecidableEq, Repr

/-- State of the queue plus ghost history: `queue` and `processing` are the
fields of `SimpleMessageQueue`; `loops` the live `processQueue` activations;
`enqueued` every job ever passed to `add` (in order); `sent` every job whose
Delivery Client send invocation has started (in order). -/
structure QState where
  queue : List MetaApiJobData
  processing : Bool
  loops : List LoopPC
  enqueued : List MetaApiJobData
  sent : List MetaApiJobData
deriving DecidableEq, Repr

/-- The initial state of the singleton queue. -/
def qInit : QState := { queue := [], processing := false, loops := [], enqueued := [], sent := [] }

/-- One atomic (synchronous) transition of the queue system. -/
inductive QStep : QState → QState → Prop where
  /-- `add j` while idle: push `j`, call `processQueue` (flag check passes),
  set the flag, shift the head `h` of the pushed queue and start its send. -/
  | addIdle (s : QState) (j h : MetaApiJobData) (t : List MetaApiJobData)
      (hp : s.processing = false) (hq : s.queue ++ [j] = h :: t) :
      QStep s { queue := t, processing := true,
                loops := s.loops ++ [LoopPC.sending h],
                enqueued := s.enqueued ++ [j], sent := s.sent ++ [h] }
  /-- `add j` while a drain is running: push only. -/
  | addBusy (s : QState) (j : MetaApiJobData) (hp : s.processing = true) :
      QStep s { s with queue := s.queue ++ [j], enqueued := s.enqueued ++ [j] }
  /-- A pending send resolves successfully: the loop starts awaiting the
  pacing `setTimeout`. -/
  | sendOk (s : QState) (pre post : List LoopPC) (j : MetaApiJobData)
      (hl : s.loops = pre ++ LoopPC.sending j :: post) :
      QStep s { s with loops := pre ++ LoopPC.pacing :: post }
  /-- A pending send rejects and the queue is non-empty: the `catch` swallows
  the error and the loop immediately shifts the next job and starts its send
  (no pacing sleep on the failure path). -/
  | sendFailNext (s : QState) (pre post : List LoopPC) (j h : MetaApiJobData)
      (t : List MetaApiJobData)
      (hl : s.loops = pre ++ LoopPC.sending j :: post) (hq : s.queue = h :: t) :
      QStep s { queue := t, processing := s.processing,
                loops := pre ++ LoopPC.sending h :: post,
                enqueued := s.enqueued, sent := s.sent ++ [h] }
  /-- A pending send rejects and the queue is empty: the loop exits and
  clears the `processing` flag. -/
  | sendFailDone (s : QState) (pre post : List LoopPC) (j : MetaApiJobData)
      (hl : s.loops = pre ++ LoopPC.sending j :: post) (hq : s.queue = []) :
      QStep s { s with processing := false, loops := pre ++ post }
  /-- The pacing `setTimeout` fires and the queue is non-empty: shift the
  next job and start its send. -/
  | paceNext (s : QState) (pre post : List LoopPC) (h : MetaApiJobData)
      (t : List MetaApiJobData)
      (hl : s.loops = pre ++ LoopPC.pacing :: post) (hq : s.queue = h :: t) :
      QStep s { queue := t, processing := s.processing,
                loops := pre ++ LoopPC.sending h :: post,
                enqueued := s.enqueued, sent := s.sent ++ [h] }
  /-- The pacing `setTimeout` fires and the queue is empty: the loop exits
  and clears the `processing` flag. -/
  | paceDone (s : QState) (pre post : List LoopPC)
      (hl : s.loops = pre ++ LoopPC.pacing :: post) (hq : s.queue = []) :
      QStep s { s with processing := false, loops := pre ++ post }

/-- Reachability from the initial queue state. -/
inductive QReachable : QState → Prop where
  | init : QReachable qInit
  | step {s s' : QState} : QReachable s → QStep s s' → QReachable s'

/-- Whether a loop activation currently has a Delivery Client send in
flight. -/
def inFlight : LoopPC → Bool
  | LoopPC.sending _ => true
  | LoopPC.pacing => false

/-- The inductive invariant of the queue system. -/
def QInv (s : QState) : Prop :=
  s.enqueued = s.sent ++ s.queue ∧
  s.loops.length ≤ 1 ∧
  (s.processing = false → s.loops = []) ∧
  (s.processing = false → s.queue = [])

theorem qInv_init : QInv qInit := by
  refine ⟨rfl, ?_, fun _ => rfl, fun _ => rfl⟩
  simp [qInit]

theorem middle_nil_of_length_le_one {α : Type} {pre post : List α} {x : α}
    (h : (pre ++ x :: post).length ≤ 1) : pre = [] ∧ post = [] := by
  rcases pre with _ | ⟨a, pre⟩
  · rcases post with _ | ⟨b, post⟩
    · exact ⟨rfl, rfl⟩
    · simp at h
  · simp [List.length_append] at h

theorem qInv_step {s s' : QState} (hinv : QInv s) (hstep : QStep s s') : QInv s' := by
  obtain ⟨hA, hLen, hLoops, hQueue⟩ := hinv
  cases hstep with
  | addIdle j h t hp hq =>
    refine ⟨?_, ?_, ?_, ?_⟩
    · calc s.enqueued ++ [j] = (s.sent ++ s.queue) ++ [j] := by rw [hA]
        _ = s.sent ++ (s.queue ++ [j]) := by rw [List.append_assoc]
        _ = s.sent ++ (h :: t) := by rw [hq]
        _ = (s.sent ++ [h]) ++ t := by simp
    · simp [hLoops hp]
    · intro hc; simp at hc
    · intro hc; simp at hc
  | addBusy j hp =>
    refine ⟨?_, hLen, ?_, ?_⟩
    · simp [hA]
    · intro hc; rw [hp] at hc; cases hc
    · intro hc; rw [hp] at hc; cases hc
  | sendOk pre post j hl =>
    have hps : s.processing = true := by
      cases hps : s.processing
      · exact absurd (hLoops hps ▸ hl).symm (by simp)
      · rfl
    refine ⟨hA, ?_, ?_, ?_⟩
    · have := hl ▸ hLen
      simpa using this
    · intro hc; rw [hps] at hc; cases hc
    · intro hc; rw [hps] at hc; cases hc
  | sendFailNext pre post j h t hl hq =>
    have hps : s.processing = true := by
      cases hps : s.processing
      · exact absurd (hLoops hps ▸ hl).symm (by simp)
      · rfl
    refine ⟨?_, ?_, ?_, ?_⟩
    · calc s.enqueued = s.sent ++ s.queue := hA
        _ = s.sent ++ (h :: t) := by rw [hq]
        _ = (s.sent ++ [h]) ++ t := by simp
    · have := hl ▸ hLen
      simpa using this
    · intro hc; rw [hps] at hc; cases hc
    · intro hc; rw [hps] at hc; cases hc
  | sendFailDone pre post j hl hq =>
    have hpp := middle_nil_of_length_le_one (hl ▸ hLen)
    refine ⟨hA, ?_, ?_, ?_⟩
    · simp [hpp.1, hpp.2]
    · intro hc; simp [hpp.1, hpp.2]
    · intro hc; exact hq
  | paceNext pre post h t hl hq =>
    have hps : s.processing = true := by
      cases hps : s.processing
      · exact absurd (hLoops hps ▸ hl).symm (by simp)
      · rfl
    refine ⟨?_, ?_, ?_, ?_⟩
    · calc s.enqueued = s.sent ++ s.queue := hA
        _ = s.sent ++ (h :: t) := by rw [hq]
        _ = (s.sent ++ [h]) ++ t := by simp
    · have := hl ▸ hLen
      simpa using this
    · intro hc; rw [hps] at hc; cases hc
    · intro hc; rw [hps] at hc; cases hc
  | paceDone pre post hl hq =>
    have hpp := middle_nil_of_length_le_one (hl ▸ hLen)
    refine ⟨hA, ?_, ?_, ?_⟩
    · simp [hpp.1, hpp.2]
    · intro hc; simp [hpp.1, hpp.2]
    · intro hc; exact hq

theorem qInv_reachable {s : QState} (h : QReachable s) : QInv s := by
  induction h with
  | init => exact qInv_init
  | step _ hstep ih => exact qInv_step ih hstep

/-- C1: For every sequence of messages enqueued on the delivery queue, the
send invocations started so far are exactly a prefix of the enqueued
sequence (strict FIFO, each job's send started at most once), at most one
`processQueue` loop is ever active, at most one Delivery Client send is in
flight at any time (no two invocations overlap), and whenever the queue is
quiescent (`processing = false`) every enqueued job's send has been invoked
exactly once, in the original enqueue order. -/
theorem queue_single_flight_fifo (s : QState) (h : QReachable s) :
    s.enqueued = s.sent ++ s.queue ∧
    s.loops.length ≤ 1 ∧
    (s.loops.filter inFlight).length ≤ 1 ∧
    (s.processing = false → s.sent = s.enqueued) := by
  obtain ⟨hA, hLen, hLoops, hQueue⟩ := qInv_reachable h
  refine ⟨hA, hLen, ?_, ?_⟩
  · exact le_trans (List.length_filter_le _ _) hLen
  · intro hp
    rw [hA, hQueue hp, List.append_nil]

/-- State after `add jobA` from the initial (idle) state: the drain loop
started synchronously and `jobA`'s send is in flight. -/
def qStateOne : QState :=
  { queue := [], processing := true, loops := [LoopPC.sending jobA],
    enqueued := [jobA], sent := [jobA] }

/-- State after `jobA`'s send resolved successfully: the loop awaits the
pacing sleep. -/
def qStateTwo : QState :=
  { queue := [], processing := true, loops := [LoopPC.pacing],
    enqueued := [jobA], sent := [jobA] }

/-- Quiescent state after the pacing sleep fired with an empty backlog. -/
def qStateThree : QState :=
  { queue := [], processing := false, loops := [],
    enqueued := [jobA], sent := [jobA] }

theorem qStateThree_reachable : QReachable qStateThree := by
  have h1 : QStep qInit qStateOne := by
    have := QStep.addIdle qInit jobA jobA [] rfl rfl
    simpa [qInit, qStateOne] using this
  have h2 : QStep qStateOne qStateTwo := by
    have := QStep.sendOk qStateOne [] [] jobA rfl
    simpa [qStateOne, qStateTwo] using this
  have h3 : QStep qStateTwo qStateThree := by
    have := QStep.paceDone qStateTwo [] [] rfl rfl
    simpa [qStateTwo, qStateThree] using this
  exact QReachable.step (QReachable.step (QReachable.step QReachable.init h1) h2) h3

/-- Witness for C1 at a concrete reachable quiescent state. -/
theorem queue_single_flight_fifo_witness :
    qStateThree.enqueued = qStateThree.sent ++ qStateThree.queue ∧
    qStateThree.loops.length ≤ 1 ∧
    (qStateThree.loops.filter inFlight).length ≤ 1 ∧
    (qStateThree.processing = false → qStateThree.sent = qStateThree.enqueued) :=
  queue_single_flight_fifo qStateThree qStateThree_reachable

/-- C2 counterexample: in a drain run over two queued jobs whose send
attempts both fail, the two Delivery Client invocations are adjacent — no
pacing wait separates them, because the 1000 ms sleep sits inside the `try`
and is skipped when the send rejects.  This refutes the claim that the loop
waits the pacing interval after every attempt, success or failure. -/
theorem pacing_after_failure_counterexample :
    processQueueRun [jobA, jobB] (fun _ => false)
      = [DrainAction.send jobA false, DrainAction.send jobB false] ∧
    noAdjacentSends (processQueueRun [jobA, jobB] (fun _ => false)) = false := by
  constructor <;> rfl

/-- C2 amended: the drain loop pulls each queued item in order and attempts
its send; after a successful attempt it waits the pacing interval before
pulling the next item, while after a failed attempt the `catch` swallows the
error and the next item is pulled immediately, with no pacing wait.
Consequently the number of pacing waits in a run equals the number of
successful attempts. -/
theorem pacing_after_success_only (jobs : List MetaApiJobData)
    (ok : MetaApiJobData → Bool) :
    processQueueRun jobs ok
      = jobs.flatMap (fun j =>
          if ok j then [DrainAction.send j true, DrainAction.wait]
          else [DrainAction.send j false]) ∧
    ((processQueueRun jobs ok).filter (fun a => a = DrainAction.wait)).length
      = (jobs.filter ok).length := by
  induction jobs with
  | nil => exact ⟨rfl, rfl⟩
  | cons j rest ih =>
    by_cases hj : ok j = true
    · refine ⟨by simp [processQueueRun, hj, ih.1], ?_⟩
      simp only [processQueueRun, hj, if_true, List.filter]
      simp [ih.2]
    · refine ⟨by simp [processQueueRun, hj, ih.1], ?_⟩
      simp only [processQueueRun, hj, if_false, List.filter, Bool.false_eq_true]
      simp [ih.2, hj]

/-- C7: failure isolation in the drain loop — over any backlog and any
pattern of send outcomes (in particular when item `i` fails), every queued
item is attempted exactly once, in FIFO order: the failed item is neither
retried nor re-queued, and the following items are still attempted.  The
run is a total function of the backlog (the `catch` swallows the error), so
no failure propagates to the enqueuer, which already returned. -/
theorem failure_isolation (jobs : List MetaApiJobData)
    (ok : MetaApiJobData → Bool) :
    (processQueueRun jobs ok).filterMap sendJob = jobs := by
  induction jobs with
  | nil => rfl
  | cons j rest ih =>
    by_cases hj : ok j = true <;>
      simp [processQueueRun, hj, sendJob, List.filterMap, ih]

/-! ## Event normalizer (`receiveWebhook` in webhookController.ts)

The payload objects are modelled field-by-field after the accesses the
controller makes.  A field that may be absent (or `undefined`/`null`) is an
`Option`; JavaScript truthiness of a string-valued expression (`some s`
with `s` non-empty) is `jsTruthy`; the `a || b` fallback on string values
is `jsOr`. -/

/-- Truthiness of a possibly-absent string: `undefined`, `null` and the
empty string are falsy. -/
def jsTruthy : Option String → Bool
  | some s => !(s == "")
  | none => false

/-- The JavaScript `a || b` fallback for a possibly-absent string `a` with
default `b`: an absent or empty string falls through to `b`. -/
def jsOr : Option String → String → String
  | some s, b => if s = "" then b else s
  | none, b => b

/-- `messaging[i].sender` object. -/
structure Sender where
  id : Option String
deriving DecidableEq, Repr

/-- A `message` object carrying optional `text` (`message.mid` is never
read by the controller). -/
structure MsgBody where
  text : Option String
deriving DecidableEq, Repr

/-- One element of a Messenger entry's `messaging` array. -/
structure MessagingItem where
  sender : Option Sender
  message : Option MsgBody
deriving DecidableEq, Repr

/-- An Instagram `from` object. -/
structure IgFrom where
  id : Option String
  username : Option String
deriving DecidableEq, Repr

/-- One element of `changes[0].value.messages` (the `from` field is named
`from_` because `from` is a Lean keyword). -/
structure IgMsg where
  from_ : Option IgFrom
  text : Option String
  message : Option MsgBody
deriving DecidableEq, Repr

/-- The `changes[0].value` object: it may carry a `messages` array
(format 1) or itself be the message data (format 2). -/
structure IgValue where
  messages : Option (List IgMsg)
  from_ : Option IgFrom
  text : Option String
  message : Option MsgBody
deriving DecidableEq, Repr

/-- Reading `changes[0].value` as a message object (format 2): the code
then only accesses `from`, `text` and `message` on it. -/
def IgValue.asMsg (v : IgValue) : IgMsg :=
  { from_ := v.from_, text := v.text, message := v.message }

/-- One element of an entry's `changes` array. -/
structure ChangeItem where
  value : IgValue
deriving DecidableEq, Repr

/-- A webhook entry; the controller probes the `messaging` and `changes`
fields independently. -/
structure WebhookEntry where
  messaging : Option (List MessagingItem)
  changes : Option (List ChangeItem)
deriving DecidableEq, Repr

/-- A webhook payload body. -/
structure WebhookPayload where
  entry : Option (List WebhookEntry)
deriving DecidableEq, Repr

/-- Platform tag passed to the message handler. -/
inductive Platform where
  | messenger
  | instagram
deriving DecidableEq, Repr

/-- A canonical normalized inbound event: the arguments of one
`messageHandler(psid, text, platform)` call. -/
structure InboundEvent where
  recipientId : String
  text : String
  platform : Platform
deriving DecidableEq, Repr

/-- The Messenger block of the entry loop: `if ('messaging' in entry &&
entry.messaging)`, take `messaging[0]`, and emit when `messaging?.message
&& messaging?.sender?.id` is truthy, with `text = messaging.message?.text
|| ''`. -/
def messagingEvents : Option (List MessagingItem) → List InboundEvent
  | none => []
  | some messaging =>
    match messaging.head? with
    | none => []
    | some m =>
      match m.message, m.sender.bind Sender.id with
      | some msg, some psid =>
        if psid = "" then []
        else [{ recipientId := psid, text := jsOr msg.text "", platform := Platform.messenger }]
      | _, _ => []

/-- Resolution of the Instagram message object:
`change?.messages?.[0] || (change?.from?.id ? change : null)` — format 1
wins whenever `messages[0]` exists; otherwise format 2 applies when
`change.from.id` is truthy. -/
def igResolve : Option IgValue → Option IgMsg
  | none => none
  | some v =>
    match v.messages.bind List.head? with
    | some m => some m
    | none => if jsTruthy (v.from_.bind IgFrom.id) then some v.asMsg else none

/-- The Instagram block of the entry loop: `if ('changes' in entry &&
entry.changes)`, take `change = changes[0]?.value`, resolve the message
object via `igResolve`, and emit when `igMessage?.from?.id` is truthy, with
`text = igMessage.text || igMessage.message?.text || ''`. -/
def changesEvents : Option (List ChangeItem) → List InboundEvent
  | none => []
  | some changes =>
    match igResolve ((changes.head?).map ChangeItem.value) with
    | some igMessage =>
      match igMessage.from_.bind IgFrom.id with
      | some psid =>
        if psid = "" then []
        else [{ recipientId := psid,
                text := jsOr igMessage.text (jsOr (igMessage.message.bind MsgBody.text) ""),
                platform := Platform.instagram }]
      | none => []
    | none => []

/-- Events of one entry: the controller runs the Messenger block and the
Instagram block as two independent `if`s, in this order. -/
def entryEvents (e : WebhookEntry) : List InboundEvent :=
  messagingEvents e.messaging ++ changesEvents e.changes

/-- The full normalization of `receiveWebhook`: return no events when
`!body.entry || body.entry.length === 0`, else process each entry in array
order.  The function is total — the controller's `try`/`catch` and the
per-entry guards mean malformed input degrades to "no event", never a
failure. -/
def normalizePayload (p : WebhookPayload) : List InboundEvent :=
  match p.entry with
  | none => []
  | some entries => entries.flatMap entryEvents

/-- The `a || ''` fallback on a present string returns that string. -/
theorem jsOr_some_empty (t : String) : jsOr (some t) "" = t := by
  unfold jsOr
  by_cases h : t = "" <;> simp [h]

/-- Every event emitted by the Messenger block carries the messenger tag. -/
theorem messagingEvents_platform {ms : Option (List MessagingItem)}
    {ev : InboundEvent} (h : ev ∈ messagingEvents ms) :
    ev.platform = Platform.messenger := by
  unfold messagingEvents at h
  repeat' split at h
  all_goals simp_all

/-- Every event emitted by the Instagram block carries the instagram tag. -/
theorem changesEvents_platform {ch : Option (List ChangeItem)}
    {ev : InboundEvent} (h : ev ∈ changesEvents ch) :
    ev.platform = Platform.instagram := by
  unfold changesEvents at h
  repeat' split at h
  all_goals simp_all

/-- Concrete Messenger entry whose first messaging element has an empty
`sender.id` and message text `"hi"`. -/
def emptySenderEntry : WebhookEntry :=
  { messaging := some [{ sender := some { id := some "" }, message := some { text := some "hi" } }],
    changes := none }

/-- C3 counterexample: an entry whose first messaging element has
`sender.id = ""` (so `S = ""`) and `message.text = "hi"` yields zero
events, not the claimed single event, because the guard
`messaging?.message && messaging?.sender?.id` treats the empty string as
falsy. -/
theorem messenger_empty_sender_counterexample :
    entryEvents emptySenderEntry = [] ∧
    entryEvents emptySenderEntry
      ≠ [{ recipientId := "", text := "hi", platform := Platform.messenger }] := by
  exact ⟨rfl, by decide⟩

/-- C3 amended: for every primary-shaped entry (a `messaging` field and no
`changes` field) whose first messaging element has a non-empty
`sender.id = S` and a `message` object with `text = T`, normalization emits
exactly one event `(S, T, messenger)`; when `message.text` is missing the
emitted text is the empty string.  (Entries whose `sender.id` is the empty
string are skipped by the truthiness guard.) -/
theorem messenger_normalization (S T : String) (rest : List MessagingItem)
    (hS : S ≠ "") :
    entryEvents { messaging := some ({ sender := some { id := some S },
                                       message := some { text := some T } } :: rest),
                  changes := none }
      = [{ recipientId := S, text := T, platform := Platform.messenger }] ∧
    entryEvents { messaging := some ({ sender := some { id := some S },
                                       message := some { text := none } } :: rest),
                  changes := none }
      = [{ recipientId := S, text := "", platform := Platform.messenger }] := by
  refine ⟨?_, ?_⟩
  · simp [entryEvents, messagingEvents, changesEvents, jsOr, hS]
    exact fun h => h.symm
  · simp [entryEvents, messagingEvents, changesEvents, jsOr, hS]

/-- Witness for C3 amended at `S = "u1"`, `T = "hi"`. -/
theorem messenger_normalization_witness :
    entryEvents { messaging := some [{ sender := some { id := some "u1" },
                                       message := some { text := some "hi" } }],
                  changes := none }
      = [{ recipientId := "u1", text := "hi", platform := Platform.messenger }] ∧
    entryEvents { messaging := some [{ sender := some { id := some "u1" },
                                       message := some { text := none } }],
                  changes := none }
      = [{ recipientId := "u1", text := "", platform := Platform.messenger }] :=
  messenger_normalization "u1" "hi" [] (by decide)

/-- Secondary entry in format 1 (Branch A):
`changes[0].value.messages = [{from:{id:S}, text:T}]`. -/
def branchAEntry (S T : String) : WebhookEntry :=
  { messaging := none,
    changes := some [{ value :=
      { messages := some [{ from_ := some { id := some S, username := none },
                            text := some T, message := none }],
        from_ := none, text := none, message := none } }] }

/-- Secondary entry in format 2 (Branch B):
`changes[0].value = {from:{id:S}, text:T}`, no `messages` field. -/
def branchBEntry (S T : String) : WebhookEntry :=
  { messaging := none,
    changes := some [{ value :=
      { messages := none, from_ := some { id := some S, username := none },
        text := some T, message := none } }] }

/-- C4 counterexample: at `S = ""` neither Branch A nor Branch B input
produces the claimed single event `(S, T, instagram)` — both produce zero
events, because `from.id = ""` is falsy.  (The two branches still agree
with each other.) -/
theorem branch_equivalence_counterexample :
    entryEvents (branchAEntry "" "yo") = [] ∧
    entryEvents (branchAEntry "" "yo")
      ≠ [{ recipientId := "", text := "yo", platform := Platform.instagram }] ∧
    entryEvents (branchBEntry "" "yo") = [] := by
  refine ⟨rfl, by decide, rfl⟩

/-- C4 amended: Branch A and Branch B inputs with the same `S` and `T` are
behaviourally equivalent for all `S`, `T`; when `S` is non-empty both
produce the identical single event `(S, T, instagram)` (and when `S` is
empty both produce no event). -/
theorem branch_equivalence (S T : String) :
    entryEvents (branchAEntry S T) = entryEvents (branchBEntry S T) ∧
    (S ≠ "" → entryEvents (branchAEntry S T)
      = [{ recipientId := S, text := T, platform := Platform.instagram }]) := by
  by_cases hS : S = ""
  · refine ⟨?_, fun h => absurd hS h⟩
    simp [branchAEntry, branchBEntry, entryEvents, messagingEvents, changesEvents,
      igResolve, jsTruthy, hS]
  · refine ⟨?_, ?_⟩
    · simp [branchAEntry, branchBEntry, entryEvents, messagingEvents, changesEvents,
        igResolve, jsTruthy, IgValue.asMsg, jsOr, hS]
    · simp [branchAEntry, branchBEntry, entryEvents, messagingEvents, changesEvents,
        igResolve, jsTruthy, IgValue.asMsg, jsOr, hS]
      exact fun h => h.symm

/-- Witness for C4 amended at `S = "u2"`, `T = "yo"`. -/
theorem branch_equivalence_witness :
    entryEvents (branchAEntry "u2" "yo") = entryEvents (branchBEntry "u2" "yo") ∧
    entryEvents (branchAEntry "u2" "yo")
      = [{ recipientId := "u2", text := "yo", platform := Platform.instagram }] :=
  ⟨(branch_equivalence "u2" "yo").1, (branch_equivalence "u2" "yo").2 (by decide)⟩

/-- An entry carrying both a populated `messaging` field and a populated
`changes` field. -/
def bothShapesEntry : WebhookEntry :=
  { messaging := some [{ sender := some { id := some "u1" },
                         message := some { text := some "hi" } }],
    changes := some [{ value :=
      { messages := none, from_ := some { id := some "u2", username := none },
        text := some "yo", message := none } }] }

/-- C5 counterexample: the two shape checks are independent `if`s, not
`else if`, so a single entry carrying both fields yields both a primary
(messenger) and a secondary (instagram) event — refuting mutual
exclusivity. -/
theorem both_shapes_counterexample :
    entryEvents bothShapesEntry
      = [{ recipientId := "u1", text := "hi", platform := Platform.messenger },
         { recipientId := "u2", text := "yo", platform := Platform.instagram }] ∧
    (entryEvents bothShapesEntry).any
      (fun ev => decide (ev.platform = Platform.messenger)) = true ∧
    (entryEvents bothShapesEntry).any
      (fun ev => decide (ev.platform = Platform.instagram)) = true := by
  refine ⟨rfl, rfl, rfl⟩

/-- C5 amended: the `changes` branch is consulted independently of the
`messaging` field (and vice versa): the instagram events of an entry are a
function of its `changes` field alone, and the messenger events a function
of its `messaging` field alone; an entry carrying both shapes therefore
yields both events rather than being mutually exclusive. -/
theorem independent_shape_branches (ms ms' : Option (List MessagingItem))
    (ch ch' : Option (List ChangeItem)) :
    (entryEvents { messaging := ms, changes := ch }).filter
        (fun ev => decide (ev.platform = Platform.instagram))
      = (entryEvents { messaging := ms', changes := ch }).filter
          (fun ev => decide (ev.platform = Platform.instagram)) ∧
    (entryEvents { messaging := ms, changes := ch }).filter
        (fun ev => decide (ev.platform = Platform.messenger))
      = (entryEvents { messaging := ms, changes := ch' }).filter
          (fun ev => decide (ev.platform = Platform.messenger)) := by
  have hmsg : ∀ (m : Option (List MessagingItem)),
      (messagingEvents m).filter (fun ev => decide (ev.platform = Platform.instagram)) = [] := by
    intro m
    rw [List.filter_eq_nil_iff]
    intro ev hev
    simp [messagingEvents_platform hev]
  have hch : ∀ (c : Option (List ChangeItem)),
      (changesEvents c).filter (fun ev => decide (ev.platform = Platform.messenger)) = [] := by
    intro c
    rw [List.filter_eq_nil_iff]
    intro ev hev
    simp [changesEvents_platform hev]
  constructor
  · simp [entryEvents, List.filter_append, hmsg]
  · simp [entryEvents, List.filter_append, hch]

/-- C6: normalization degrades gracefully instead of raising — it is a
total function by construction.  A payload with a missing or empty `entry`
field yields an empty event sequence; an entry with neither `messaging`
nor `changes`, or with those arrays empty, yields zero events; and a
malformed entry is skipped without stopping the processing of the
remaining entries. -/
theorem normalizer_graceful (p : WebhookPayload) (e : WebhookEntry)
    (rest : List WebhookEntry) :
    ((p.entry = none ∨ p.entry = some []) → normalizePayload p = []) ∧
    ((e.messaging = none ∨ e.messaging = some []) →
      (e.changes = none ∨ e.changes = some []) → entryEvents e = []) ∧
    normalizePayload { entry := some (e :: rest) }
      = entryEvents e ++ normalizePayload { entry := some rest } := by
  refine ⟨?_, ?_, ?_⟩
  · rintro (h | h) <;> simp [normalizePayload, h]
  · obtain ⟨ms, ch⟩ := e
    rintro (h | h) (h' | h') <;> subst h <;> subst h' <;> rfl
  · simp [normalizePayload]

/-- Witness for C6 at a concrete empty payload and a concrete entry with
empty `messaging` and `changes` arrays. -/
theorem normalizer_graceful_witness :
    normalizePayload { entry := some [] } = [] ∧
    entryEvents { messaging := some [], changes := some [] } = [] ∧
    normalizePayload { entry := some [{ messaging := some [], changes := some [] }] }
      = entryEvents { messaging := some [], changes := some [] }
        ++ normalizePayload { entry := some [] } := by
  have h := normalizer_graceful { entry := some [] }
    { messaging := some [], changes := some [] } []
  exact ⟨h.1 (Or.inr rfl), h.2.1 (Or.inr rfl) (Or.inr rfl), h.2.2⟩

/-- The `changes[0].value` of the C10 counterexample: a present-but-empty
`messages` array and a present-but-empty `from.id`. -/
def emptyIdValue : IgValue :=
  { messages := some [], from_ := some { id := some "", username := none },
    text := some "yo", message := none }

/-- C10 counterexample: with `value.messages` a present-but-empty array and
`value.from.id` present (but equal to the empty string), the entry emits no
event — the fallback requires `from.id` to be truthy, not merely present,
so the claim that such an entry "still emits an event" fails. -/
theorem fallback_empty_id_counterexample :
    (emptyIdValue.from_.bind IgFrom.id).isSome = true ∧
    emptyIdValue.messages = some [] ∧
    changesEvents (some [{ value := emptyIdValue }]) = [] := by
  refine ⟨rfl, rfl, rfl⟩

/-- C10 amended: in the `changes` branch, Branch B (treating
`changes[0].value` itself as the message) fires exactly when `messages[0]`
is absent (missing field or empty array) and `value.from.id` is truthy
(present and non-empty): a present-but-empty `messages` array with a
non-empty `value.from.id` still emits an event built from `value` itself;
when `value.from.id` is empty or absent, nothing is emitted; and once
`messages[0]` exists Branch B is never consulted, so an entry whose
`messages[0]` lacks a truthy `from.id` emits nothing even if
`value.from.id` is present. -/
theorem fallback_resolution (v : IgValue) (m : IgMsg) (rest : List IgMsg)
    (f : IgFrom) (S : String) :
    (v.messages = some (m :: rest) → igResolve (some v) = some m) ∧
    ((v.messages = none ∨ v.messages = some []) →
      jsTruthy (v.from_.bind IgFrom.id) = true → igResolve (some v) = some v.asMsg) ∧
    ((v.messages = none ∨ v.messages = some []) →
      jsTruthy (v.from_.bind IgFrom.id) = false → igResolve (some v) = none) ∧
    (v.messages = some (m :: rest) → jsTruthy (m.from_.bind IgFrom.id) = false →
      changesEvents (some [{ value := v }]) = []) ∧
    ((v.messages = none ∨ v.messages = some []) → v.from_ = some f →
      f.id = some S → S ≠ "" →
      changesEvents (some [{ value := v }])
        = [{ recipientId := S,
             text := jsOr v.text (jsOr (v.message.bind MsgBody.text) ""),
             platform := Platform.instagram }]) := by
  refine ⟨?_, ?_, ?_, ?_, ?_⟩
  · intro h
    simp [igResolve, h]
  · rintro (h | h) ht <;> simp [igResolve, h, ht]
  · rintro (h | h) ht <;> simp [igResolve, h, ht]
  · intro h ht
    rcases hid : m.from_.bind IgFrom.id with _ | s
    · simp [changesEvents, igResolve, h, hid]
    · have hs : s = "" := by
        simp [jsTruthy, hid] at ht
        exact ht
      simp [changesEvents, igResolve, h, hid, hs]
  · rintro (h | h) hf hfid hS <;>
      simp [changesEvents, igResolve, jsTruthy, IgValue.asMsg, h, hf, hfid, hS]

/-! ## Delivery Client (`MetaService.sendMessage` in metaService.ts) -/

/-- The primary (Facebook Graph) base URL of `MetaService`. -/
def baseUrl : String := "https://graph.facebook.com/v22.0"

/-- The secondary (Instagram Graph) base URL of `MetaService`. -/
def instagramBaseUrl : String := "https://graph.instagram.com/v22.0"

/-- Parameters of `MetaService.sendMessage`. -/
structure MetaSendMessageParams where
  psid : String
  text : String
  accessToken : String
  instagramAccountId : Option String
deriving DecidableEq, Repr

/-- The `recipient` wrapper of the request body. -/
structure RecipientObj where
  id : String
deriving DecidableEq, Repr

/-- The `message` wrapper of the request body. -/
structure MessageObj where
  text : String
deriving DecidableEq, Repr

/-- The JSON body posted by `sendMessage`. -/
structure SendBody where
  recipient : RecipientObj
  message : MessageObj
deriving DecidableEq, Repr

/-- Endpoint selection of `sendMessage`: `instagramAccountId ?
instagramBaseUrl/{id}/messages : baseUrl/me/messages` — a truthiness test,
so an empty-string account id selects the Messenger endpoint. -/
def sendMessageUrl (params : MetaSendMessageParams) : String :=
  match params.instagramAccountId with
  | some igid =>
    if igid = "" then baseUrl ++ "/me/messages"
    else instagramBaseUrl ++ "/" ++ igid ++ "/messages"
  | none => baseUrl ++ "/me/messages"

/-- The request body of `sendMessage`:
`{recipient: {id: psid}, message: {text}}`. -/
def sendMessagePayload (params : MetaSendMessageParams) : SendBody :=
  { recipient := { id := params.psid }, message := { text := params.text } }

/-- Parameters whose `instagramAccountId` is present but empty. -/
def emptyAccountParams : MetaSendMessageParams :=
  { psid := "u1", text := "hi", accessToken := "tok", instagramAccountId := some "" }

/-- C8 counterexample: with `instagramAccountId` present but equal to the
empty string, the request is routed to the primary self-scoped endpoint,
not the secondary base URL scoped to that account id — presence alone does
not determine routing, truthiness does. -/
theorem routing_empty_account_counterexample :
    emptyAccountParams.instagramAccountId.isSome = true ∧
    sendMessageUrl emptyAccountParams = "https://graph.facebook.com/v22.0/me/messages" ∧
    sendMessageUrl emptyAccountParams
      ≠ "https://graph.instagram.com/v22.0//messages" := by
  refine ⟨rfl, rfl, by decide⟩

/-- C8 amended: the endpoint is determined solely by the
`instagramAccountId` field — a present and non-empty account id routes to
the secondary base URL scoped to that id, while an absent or empty one
routes to the primary self-scoped endpoint; no other field influences the
choice, and the body is always `{recipient: {id: psid}, message: {text}}`. -/
theorem routing_by_account_id (params other : MetaSendMessageParams) (igid : String) :
    (params.instagramAccountId = some igid → igid ≠ "" →
      sendMessageUrl params = instagramBaseUrl ++ "/" ++ igid ++ "/messages") ∧
    ((params.instagramAccountId = none ∨ params.instagramAccountId = some "") →
      sendMessageUrl params = baseUrl ++ "/me/messages") ∧
    (other.instagramAccountId = params.instagramAccountId →
      sendMessageUrl other = sendMessageUrl params) ∧
    sendMessagePayload params
      = { recipient := { id := params.psid }, message := { text := params.text } } := by
  refine ⟨?_, ?_, ?_, rfl⟩
  · intro h hne
    simp [sendMessageUrl, h, hne]
  · rintro (h | h) <;> simp [sendMessageUrl, h]
  · intro h
    simp [sendMessageUrl, h]

/-- Witness for C8 amended at concrete parameters. -/
theorem routing_by_account_id_witness :
    sendMessageUrl { psid := "u1", text := "hi", accessToken := "tok",
                     instagramAccountId := some "178414" }
      = instagramBaseUrl ++ "/" ++ "178414" ++ "/messages" ∧
    sendMessageUrl { psid := "u1", text := "hi", accessToken := "tok",
                     instagramAccountId := none }
      = baseUrl ++ "/me/messages" := by
  have h1 := routing_by_account_id
    { psid := "u1", text := "hi", accessToken := "tok", instagramAccountId := some "178414" }
    { psid := "u1", text := "hi", accessToken := "tok", instagramAccountId := some "178414" }
    "178414"
  have h2 := routing_by_account_id
    { psid := "u1", text := "hi", accessToken := "tok", instagramAccountId := none }
    { psid := "u1", text := "hi", accessToken := "tok", instagramAccountId := none }
    "178414"
  exact ⟨h1.1 rfl (by decide), h2.2.1 (Or.inl rfl)⟩

/-! ## Verification handshake (`verifyWebhook` in webhookController.ts) -/

/-- The GET verification handler: a pure comparison of the query
parameters against the literal `"subscribe"` and the configured secret,
echoing the challenge with status 200 on success and answering 403
`"Forbidden"` otherwise.  Query parameters may be absent, hence `Option`;
the comparisons are strict (`===`), not truthiness tests. -/
def verifyWebhook (verifyToken : String)
    (mode token challenge : Option String) : Nat × Option String :=
  if mode = some "subscribe" ∧ token = some verifyToken then (200, challenge)
  else (403, some "Forbidden")

/-- C9: when `hub.mode` is the literal `"subscribe"` and `hub.verify_token`
equals the configured secret, the response is status 200 with body exactly
`hub.challenge`; for any other mode or any mismatched token the status is
403.  The handler is a pure function of its arguments by construction. -/
theorem verify_webhook_contract (verifyToken : String)
    (mode token challenge : Option String) :
    (mode = some "subscribe" → token = some verifyToken →
      verifyWebhook verifyToken mode token challenge = (200, challenge)) ∧
    ((mode ≠ some "subscribe" ∨ token ≠ some verifyToken) →
      (verifyWebhook verifyToken mode token challenge).1 = 403) := by
  constructor
  · intro hm ht
    simp [verifyWebhook, hm, ht]
  · intro h
    have : ¬(mode = some "subscribe" ∧ token = some verifyToken) := by
      rintro ⟨hm, ht⟩
      rcases h with h | h <;> exact h (by assumption)
    simp [verifyWebhook, this]

/-- Witness for C9: a successful handshake echoing the challenge and a
mismatched-token handshake rejected with 403. -/
theorem verify_webhook_contract_witness :
    verifyWebhook "secret" (some "subscribe") (some "secret") (some "xyz")
      = (200, some "xyz") ∧
    (verifyWebhook "secret" (some "subscribe") (some "wrong") (some "xyz")).1 = 403 :=
  ⟨(verify_webhook_contract "secret" (some "subscribe") (some "secret") (some "xyz")).1
      rfl rfl,
   (verify_webhook_contract "secret" (some "subscribe") (some "wrong") (some "xyz")).2
      (Or.inr (by decide))⟩

/-- The `changes[0].value` used in the C10 witness: empty `messages` array,
non-empty `from.id`. -/
def presentIdValue : IgValue :=
  { messages := some [], from_ := some { id := some "u9", username := none },
    text := some "hey", message := none }

/-- A dummy message object used to instantiate the C10 statement. -/
def dummyIgMsg : IgMsg := { from_ := none, text := none, message := none }

/-- Witness for C10 amended: a present-but-empty `messages` array with a
non-empty `from.id` fires Branch B and emits the event built from `value`
itself. -/
theorem fallback_resolution_witness :
    igResolve (some presentIdValue) = some presentIdValue.asMsg ∧
    changesEvents (some [{ value := presentIdValue }])
      = [{ recipientId := "u9", text := "hey", platform := Platform.instagram }] := by
  have h := fallback_resolution presentIdValue dummyIgMsg []
    { id := some "u9", username := none } "u9"
  exact ⟨h.2.1 (Or.inr rfl) rfl,
         h.2.2.2.2 (Or.inr rfl) rfl rfl (by decide)⟩
